import Mathlib

/-!
Shallow embedding of the Order & Inventory Reservation Engine from
`src/main.go` (repository michellaanjani/UTS-PPT).

Timestamps are natural numbers (abstract instants); money and stock are
integers, matching the integer SQL columns.  Each SQL table is a field of
the `DB` structure; each handler is a function from a `DB` to a result and
a new `DB`.  Statements executed inside a `tx` that ends in rollback leave
the `DB` unchanged, mirroring Go's `database/sql` transaction semantics;
statements executed directly on `db` take effect immediately.  Failure of
an individual `Exec` statement (a store-level error) is modelled by an
explicit injection record passed to each handler, with one flag per
statement of the source; the `none` record is the failure-free run.
-/

deriving instance DecidableEq for Except

/-- A stock-keeping unit: the `products` table row (`UPDATE products ... WHERE id = ?`)
or the `product_variants` table row (`UPDATE product_variants ... WHERE id = ?`). -/
inductive SkuKey
  | product (id : Nat)
  | variant (id : Nat)
deriving DecidableEq, Repr

/-- `orders.status` values used by the engine: "waitToBuy", "canceled", "expired". -/
inductive OrderStatus
  | waitToBuy
  | canceled
  | expired
deriving DecidableEq, Repr

/-- A `cart_items` row (models.go `CartItemModel`). -/
structure CartItemModel where
  id : Nat
  cartID : Nat
  productID : Nat
  productVariantID : Option Nat
  quantity : Nat
  pricePerItem : Int
  totalPrice : Int
deriving DecidableEq, Repr

/-- An `orders` row (models.go `OrderModel`). -/
structure OrderModel where
  id : Nat
  userID : Nat
  cartUserID : Nat
  status : OrderStatus
  totalPrice : Int
  timerExpiration : Nat
deriving DecidableEq, Repr

/-- An `order_items` row (models.go `OrderItemModel`). -/
structure OrderItemModel where
  id : Nat
  orderID : Nat
  productID : Nat
  productVariantID : Option Nat
  quantity : Nat
  priceAtPurchase : Int
  totalPrice : Int
deriving DecidableEq, Repr

/-- A `temp_stock_reservations` row (models.go `TempStockReservationModel`). -/
structure TempStockReservationModel where
  id : Nat
  userID : Nat
  orderID : Nat
  reservedAt : Nat
  expiredAt : Nat
deriving DecidableEq, Repr

/-- A `temp_stock_details` row (models.go `TempStockDetailModel`). -/
structure TempStockDetailModel where
  tempReservationID : Nat
  productID : Nat
  productVariantID : Option Nat
  quantity : Nat
deriving DecidableEq, Repr

/-- The SKU a row with `(product_id, product_variant_id)` columns addresses:
the variant row when `product_variant_id` is non-NULL, the product row otherwise
(the dispatch at main.go:2028/2032). -/
def itemSku (productID : Nat) (productVariantID : Option Nat) : SkuKey :=
  match productVariantID with
  | some v => SkuKey.variant v
  | none => SkuKey.product productID

/-- The relational store.  `stock` is the `stock` column of `products` /
`product_variants`; `hearts` the per-user credit column of `users`
(`none` = no such user row); `carts` maps a cart id (= user id) to its
`total_price` (`none` = no cart row).  `nextOrderID` / `nextResID` model
`LastInsertId`. -/
structure DB where
  stock : SkuKey → Int
  hearts : Nat → Option Int
  carts : Nat → Option Int
  cartItems : List CartItemModel
  orders : List OrderModel
  orderItems : List OrderItemModel
  reservations : List TempStockReservationModel
  details : List TempStockDetailModel
  nextOrderID : Nat
  nextResID : Nat

/-- `UPDATE <table> SET stock = stock - q WHERE id = k AND stock >= q`
(main.go:2029-2035): the decrement applies only to a row currently holding
at least `q`; otherwise zero rows are affected and the stock is unchanged. -/
def condReserve (st : SkuKey → Int) (k : SkuKey) (q : Nat) : SkuKey → Int :=
  if (q : Int) ≤ st k then Function.update st k (st k - q) else st

/-- `UPDATE <table> SET stock = stock + q WHERE id = k`
(main.go:2194-2211, 2402-2413): unconditional increment. -/
def addStock (st : SkuKey → Int) (k : SkuKey) (q : Nat) : SkuKey → Int :=
  Function.update st k (st k + q)

/-- `switch heartCount` in `CreateOrder` (main.go:2094-2103): reservation TTL
in hours; any count outside {3,2,1} falls to the `default:` branch of 6 hours. -/
def heartDuration (heartCount : Int) : Nat :=
  if heartCount = 3 then 24
  else if heartCount = 2 then 12
  else if heartCount = 1 then 6
  else 6

/-- Failure injection for `CreateOrder`: one flag per `Exec` of the source
(loop statements indexed by item position).  Cart-clearing failures are
listed even though the source discards their errors (`_, _ = tx.Exec`). -/
structure CreateOrderFail where
  orderInsert : Bool
  itemInsert : Nat → Bool
  resInsert : Bool
  detailInsert : Nat → Bool
  stockUpdate : Nat → Bool
  cartDelete : Bool
  cartUpdate : Bool
  commitStep : Bool

/-- The failure-free run. -/
def CreateOrderFail.none : CreateOrderFail :=
  ⟨false, fun _ => false, false, fun _ => false, fun _ => false, false, false, false⟩

/-- Error outcomes of `CreateOrder` (the handler's JSON error branches). -/
inductive CreateOrderErr
  | cartNotFound
  | emptyCart
  | heartLookupFailed
  | txFailed
deriving DecidableEq, Repr

/-- Success payload of `CreateOrder` (`order_id`, `expired_at`). -/
structure CreateOrderOk where
  orderID : Nat
  expiredAt : Nat
deriving DecidableEq, Repr

/-- The loop of main.go:2017-2040 inside `CreateStockReservationTx`:
for each item, insert its `temp_stock_details` row, then conditionally
decrement the corresponding stock row.  `none` = a statement errored
(the caller will roll back). -/
def reserveItems (fl : CreateOrderFail) (resID : Nat) :
    Nat → List OrderItemModel → DB → Option DB
  | _, [], db => some db
  | i, item :: rest, db =>
    if fl.detailInsert i then Option.none else
    let db1 : DB := { db with details := db.details ++
      [⟨resID, item.productID, item.productVariantID, item.quantity⟩] }
    if fl.stockUpdate i then Option.none else
    let db2 : DB := { db1 with
      stock := condReserve db1.stock (itemSku item.productID item.productVariantID) item.quantity }
    reserveItems fl resID (i + 1) rest db2

/-- `CreateStockReservationTx` (main.go:2003-2043): inside the caller's
transaction, insert the `temp_stock_reservations` header with
`reserved_at = now` AND `expired_at = now` (both columns get the same
`now` value at main.go:2010), then run the per-item loop. -/
def CreateStockReservationTx (fl : CreateOrderFail) (now orderID userID : Nat)
    (items : List OrderItemModel) (db : DB) : Option DB :=
  if fl.resInsert then Option.none else
  let resID := db.nextResID
  let db1 : DB := { db with
    reservations := db.reservations ++ [⟨resID, userID, orderID, now, now⟩],
    nextResID := resID + 1 }
  reserveItems fl resID 0 items db1

/-- The `order_items` insertion loop of `CreateOrder` (main.go:2127-2137). -/
def insertOrderItems (fl : CreateOrderFail) (orderID : Nat) :
    Nat → List OrderItemModel → DB → Option DB
  | _, [], db => some db
  | i, item :: rest, db =>
    if fl.itemInsert i then Option.none else
    insertOrderItems fl orderID (i + 1) rest
      { db with orderItems := db.orderItems ++ [{ item with orderID := orderID }] }

/-- `SELECT ... FROM cart_items WHERE cart_id = ?` scanned into
`OrderItemModel`s (main.go:2057-2080): `price_at_purchase` takes the cart's
`price_per_item`, `order_id` is not yet set. -/
def cartItemsAsOrderItems (db : DB) (cartID : Nat) : List OrderItemModel :=
  (db.cartItems.filter (fun it => it.cartID == cartID)).map
    (fun it => ⟨it.id, 0, it.productID, it.productVariantID, it.quantity,
                it.pricePerItem, it.totalPrice⟩)

/-- `CreateOrder` (main.go:2045-2160).  Reads (cart header, cart items,
heart count) happen before the transaction; the order insert, item inserts,
stock reservation and cart clearing happen inside one transaction that is
rolled back on any checked error.  The two cart-clearing statements ignore
their own errors, so an injected failure there skips the deletion/reset but
the transaction still commits. -/
def CreateOrder (fl : CreateOrderFail) (now userID : Nat) (db : DB) :
    Except CreateOrderErr CreateOrderOk × DB :=
  match db.carts userID with
  | Option.none => (.error .cartNotFound, db)
  | some cartTotal =>
    let items := cartItemsAsOrderItems db userID
    if items.isEmpty then (.error .emptyCart, db) else
    match db.hearts userID with
    | Option.none => (.error .heartLookupFailed, db)
    | some heartCount =>
      let expiration := now + heartDuration heartCount
      if fl.orderInsert then (.error .txFailed, db) else
      let orderID := db.nextOrderID
      let tx1 : DB := { db with
        orders := db.orders ++ [⟨orderID, userID, userID, .waitToBuy, cartTotal, expiration⟩],
        nextOrderID := orderID + 1 }
      match insertOrderItems fl orderID 0 items tx1 with
      | Option.none => (.error .txFailed, db)
      | some tx2 =>
        match CreateStockReservationTx fl now orderID userID items tx2 with
        | Option.none => (.error .txFailed, db)
        | some tx3 =>
          let tx4 : DB := if fl.cartDelete then tx3 else
            { tx3 with cartItems := tx3.cartItems.filter (fun it => !(it.cartID == userID)) }
          let tx5 : DB := if fl.cartUpdate then tx4 else
            { tx4 with carts := Function.update tx4.carts userID (some 0) }
          if fl.commitStep then (.error .txFailed, db) else
          (.ok ⟨orderID, expiration⟩, tx5)

/-- Failure injection for `CancelOrder`: one flag per transactional `Exec`
of the source (the release loop indexed by item position). -/
structure CancelFail where
  statusUpdate : Bool
  deleteDetails : Bool
  deleteRes : Bool
  release : Nat → Bool
  commitStep : Bool

/-- The failure-free run. -/
def CancelFail.none : CancelFail :=
  ⟨false, false, false, fun _ => false, false⟩

/-- Error outcomes of `CancelOrder` (main.go:2266-2282 plus tx errors). -/
inductive CancelErr
  | notFound
  | forbidden
  | invalidTransition
  | txFailed
deriving DecidableEq, Repr

/-- `GetOrderItems` (main.go:2218-2247): all `order_items` rows of an order. -/
def GetOrderItems (db : DB) (orderID : Nat) : List OrderItemModel :=
  db.orderItems.filter (fun it => it.orderID == orderID)

/-- `DeleteStockReservationTx` (main.go:2168-2188): inside the caller's
transaction, delete the `temp_stock_details` rows whose reservation belongs
to the order, then the `temp_stock_reservations` rows of the order. -/
def DeleteStockReservationTx (fl : CancelFail) (orderID : Nat) (db : DB) : Option DB :=
  if fl.deleteDetails then Option.none else
  let resIDs := (db.reservations.filter (fun r => r.orderID == orderID)).map
    TempStockReservationModel.id
  let db1 : DB := { db with
    details := db.details.filter (fun d => !(resIDs.contains d.tempReservationID)) }
  if fl.deleteRes then Option.none else
  some { db1 with reservations := db1.reservations.filter (fun r => !(r.orderID == orderID)) }

/-- `ReturnStockToInventoryTx` (main.go:2189-2216): inside the caller's
transaction, unconditionally add each item's quantity back to its stock row. -/
def ReturnStockToInventoryTx (fl : CancelFail) :
    Nat → List OrderItemModel → DB → Option DB
  | _, [], db => some db
  | i, item :: rest, db =>
    if fl.release i then Option.none else
    ReturnStockToInventoryTx fl (i + 1) rest
      { db with stock := addStock db.stock (itemSku item.productID item.productVariantID) item.quantity }

/-- `CancelOrder` (main.go:2251-2327).  The order lookup, ownership check,
status check and order-item read happen before the transaction (no mutation);
then one transaction sets the status to `canceled`, deletes the reservation
and its details, and releases every item's quantity, rolling back on any
statement error. -/
def CancelOrder (fl : CancelFail) (userID orderID : Nat) (db : DB) :
    Except CancelErr Unit × DB :=
  match db.orders.find? (fun o => o.id == orderID) with
  | Option.none => (.error .notFound, db)
  | some order =>
    if order.userID ≠ userID then (.error .forbidden, db) else
    if order.status ≠ OrderStatus.waitToBuy then (.error .invalidTransition, db) else
    let items := GetOrderItems db orderID
    if fl.statusUpdate then (.error .txFailed, db) else
    let tx1 : DB := { db with
      orders := db.orders.map (fun o => if o.id == orderID then { o with status := .canceled } else o) }
    match DeleteStockReservationTx fl orderID tx1 with
    | Option.none => (.error .txFailed, db)
    | some tx2 =>
      match ReturnStockToInventoryTx fl 0 items tx2 with
      | Option.none => (.error .txFailed, db)
      | some tx3 =>
        if fl.commitStep then (.error .txFailed, db) else
        (.ok (), tx3)

/-- Failure injection for the expiry sweep, keyed by the order id being
processed: `statusUpdate` / `heartsUpdate` are the two direct `db.Exec`
statements of `CheckAndExpireOrders`; `resTx` stands for a failure of any
statement inside `DeleteStockReservationAndReturn`'s own transaction. -/
structure SweepFail where
  statusUpdate : Nat → Bool
  heartsUpdate : Nat → Bool
  resTx : Nat → Bool

/-- The failure-free run. -/
def SweepFail.none : SweepFail :=
  ⟨fun _ => false, fun _ => false, fun _ => false⟩

/-- Error outcomes of `CheckAndExpireOrders`' direct statements
(main.go:2472-2486); each aborts the handler. -/
inductive SweepErr
  | statusUpdateFailed
  | heartsUpdateFailed
deriving DecidableEq, Repr

/-- `DeleteStockReservationAndReturn` (main.go:2334-2425): in its OWN
transaction, read the reservation details of the order, delete the details
and the reservation rows, and add each detail's quantity back to its stock
row.  Any internal statement error is only logged and rolls this
transaction back, leaving the store unchanged; the function returns nothing
to its caller either way. -/
def DeleteStockReservationAndReturn (failTx : Bool) (orderID : Nat) (db : DB) : DB :=
  if failTx then db else
  let resIDs := (db.reservations.filter (fun r => r.orderID == orderID)).map
    TempStockReservationModel.id
  let stockDetails := db.details.filter (fun d => resIDs.contains d.tempReservationID)
  let db1 : DB := { db with
    details := db.details.filter (fun d => !(resIDs.contains d.tempReservationID)) }
  let db2 : DB := { db1 with
    reservations := db1.reservations.filter (fun r => !(r.orderID == orderID)) }
  { db2 with
    stock := stockDetails.foldl
      (fun st d => addStock st (itemSku d.productID d.productVariantID) d.quantity) db2.stock }

/-- The `WHERE o.status = 'waitToBuy' AND o.timer_expiration < NOW()`
selection of `CheckAndExpireOrders` (main.go:2429-2433). -/
def expiredSelection (now : Nat) (orders : List OrderModel) : List OrderModel :=
  orders.filter (fun o => decide (o.status = .waitToBuy ∧ o.timerExpiration < now))

/-- The per-order loop of `CheckAndExpireOrders` (main.go:2465-2490): for
each selected `(orderID, userID)` pair, three separate units of work run in
sequence — a direct `UPDATE orders SET status = 'expired'`, a direct
`UPDATE users SET hearts = hearts - 1`, and the independent transaction of
`DeleteStockReservationAndReturn`.  An error of either direct statement
aborts the whole loop (the handler returns), keeping every change already
made. -/
def sweepLoop (fl : SweepFail) : List (Nat × Nat) → DB → Except SweepErr Unit × DB
  | [], db => (.ok (), db)
  | (orderID, uID) :: rest, db =>
    if fl.statusUpdate orderID then (.error .statusUpdateFailed, db) else
    let db1 : DB := { db with
      orders := db.orders.map (fun o => if o.id == orderID then { o with status := .expired } else o) }
    if fl.heartsUpdate orderID then (.error .heartsUpdateFailed, db1) else
    let db2 : DB := { db1 with
      hearts := Function.update db1.hearts uID ((db1.hearts uID).map (fun h => h - 1)) }
    sweepLoop fl rest (DeleteStockReservationAndReturn (fl.resTx orderID) orderID db2)

/-- `CheckAndExpireOrders` (main.go:2427-2494), the `sweep(now)` entry
point: select every `waitToBuy` order whose `timer_expiration` has passed,
then run the per-order loop. -/
def CheckAndExpireOrders (fl : SweepFail) (now : Nat) (db : DB) :
    Except SweepErr Unit × DB :=
  sweepLoop fl ((expiredSelection now db.orders).map (fun o => (o.id, o.userID))) db

/-- One row of the expired-reservation join scanned by
`CleanExpiredReservations` (main.go:2586-2619). -/
structure ExpiredReservationInfo where
  id : Nat
  orderID : Nat
  productID : Nat
  productVariantID : Option Nat
  quantity : Nat
deriving DecidableEq, Repr

/-- The `temp_stock_details JOIN temp_stock_reservations ...
WHERE r.expired_at <= NOW()` selection of `CleanExpiredReservations`
(main.go:2596-2602). -/
def cleanSelection (now : Nat) (db : DB) : List ExpiredReservationInfo :=
  db.details.filterMap (fun d =>
    (db.reservations.find? (fun r => r.id == d.tempReservationID && decide (r.expiredAt ≤ now))).map
      (fun r => ⟨d.tempReservationID, r.orderID, d.productID, d.productVariantID, d.quantity⟩))

/-- The fold applying `condReserve` once per order item (the stock effect of a
successful `CreateStockReservationTx` run). -/
def stockAfterReserve (items : List OrderItemModel) (st : SkuKey → Int) : SkuKey → Int :=
  items.foldl (fun s it => condReserve s (itemSku it.productID it.productVariantID) it.quantity) st

/-- The fold applying `addStock` once per order item (the stock effect of
`ReturnStockToInventoryTx`). -/
def stockAfterRelease (items : List OrderItemModel) (st : SkuKey → Int) : SkuKey → Int :=
  items.foldl (fun s it => addStock s (itemSku it.productID it.productVariantID) it.quantity) st

/-! ### Concrete scenario stores -/

/-- User 1 owns a cart holding one line of five units of product 100, but
product 100 has only three units in stock; user 1 has three hearts. -/
def dbLowStock : DB where
  stock := fun k => if k = SkuKey.product 100 then 3 else 0
  hearts := fun u => if u = 1 then some 3 else Option.none
  carts := fun u => if u = 1 then some 100 else Option.none
  cartItems := [⟨5, 1, 100, Option.none, 5, 20, 100⟩]
  orders := []
  orderItems := []
  reservations := []
  details := []
  nextOrderID := 1
  nextResID := 1

/-- User 1 owns a cart holding one line of two units of product 7 (price 30),
product 7 has ten units in stock, but user 1 has zero hearts. -/
def dbZeroHearts : DB where
  stock := fun k => if k = SkuKey.product 7 then 10 else 0
  hearts := fun u => if u = 1 then some 0 else Option.none
  carts := fun u => if u = 1 then some 60 else Option.none
  cartItems := [⟨9, 1, 7, Option.none, 2, 30, 60⟩]
  orders := []
  orderItems := []
  reservations := []
  details := []
  nextOrderID := 1
  nextResID := 1


/-- The store state a successful `CancelOrder` commits: status set to
`canceled`, reservation header and details for the order removed, every
order item's quantity added back to its stock row — all in one transaction. -/
def cancelOrderResultDB (orderID : Nat) (db : DB) : DB :=
  { db with
    orders := db.orders.map (fun o =>
      if o.id == orderID then { o with status := OrderStatus.canceled } else o),
    details := db.details.filter (fun d =>
      !(((db.reservations.filter (fun r => r.orderID == orderID)).map
        TempStockReservationModel.id).contains d.tempReservationID)),
    reservations := db.reservations.filter (fun r => !(r.orderID == orderID)),
    stock := stockAfterRelease (GetOrderItems db orderID) db.stock }

/-- User 1 owns order 1 (status `waitToBuy`): two units of product 8 were
ordered out of a stock of ten (already decremented to eight), with the
matching reservation and detail rows present. -/
def dbCancelScenario : DB where
  stock := fun k => if k = SkuKey.product 8 then 8 else 0
  hearts := fun u => if u = 1 then some 3 else Option.none
  carts := fun _ => Option.none
  cartItems := []
  orders := [⟨1, 1, 1, .waitToBuy, 20, 12⟩]
  orderItems := [⟨1, 1, 8, Option.none, 2, 10, 20⟩]
  reservations := [⟨1, 1, 1, 0, 0⟩]
  details := [⟨1, 8, Option.none, 2⟩]
  nextOrderID := 2
  nextResID := 2

/-- The store state a successful failure-free `CreateOrder` commits: the new
order row, its order items, the reservation header (`reserved_at` =
`expired_at` = `now`), its details, the conditionally decremented stock, the
cleared cart, and both advanced insert counters. -/
def createOrderResultDB (now userID : Nat) (cartTotal heartCount : Int) (db : DB) : DB :=
  { db with
    orders := db.orders ++
      [⟨db.nextOrderID, userID, userID, .waitToBuy, cartTotal, now + heartDuration heartCount⟩],
    orderItems := (db.orderItems ++
      (cartItemsAsOrderItems db userID).map (fun it => { it with orderID := db.nextOrderID })),
    reservations := db.reservations ++ [⟨db.nextResID, userID, db.nextOrderID, now, now⟩],
    details := (db.details ++ (cartItemsAsOrderItems db userID).map
      (fun it => ⟨db.nextResID, it.productID, it.productVariantID, it.quantity⟩)),
    stock := stockAfterReserve (cartItemsAsOrderItems db userID) db.stock,
    cartItems := db.cartItems.filter (fun it => !(it.cartID == userID)),
    carts := Function.update db.carts userID (some 0),
    nextOrderID := db.nextOrderID + 1,
    nextResID := db.nextResID + 1 }

/-- Two orders past their deadline at time 5: order 1 (user 10, with a live
reservation of two units of product 3) and order 2 (user 20). -/
def dbTwoExpired : DB where
  stock := fun k => if k = SkuKey.product 3 then 1 else 0
  hearts := fun u => if u = 10 then some 3 else if u = 20 then some 2 else Option.none
  carts := fun _ => Option.none
  cartItems := []
  orders := [⟨1, 10, 10, .waitToBuy, 0, 4⟩, ⟨2, 20, 20, .waitToBuy, 0, 4⟩]
  orderItems := []
  reservations := [⟨1, 10, 1, 0, 0⟩]
  details := [⟨1, 3, Option.none, 2⟩]
  nextOrderID := 3
  nextResID := 2

/-- Injection making only the `UPDATE users SET hearts = hearts - 1`
statement for order 1 fail. -/
def sweepFailHearts1 : SweepFail :=
  ⟨fun _ => false, fun oid => oid == 1, fun _ => false⟩

/-- User 7 has zero hearts and one order past its deadline at time 10. -/
def dbExpiredZeroHearts : DB where
  stock := fun _ => 0
  hearts := fun u => if u = 7 then some 0 else Option.none
  carts := fun _ => Option.none
  cartItems := []
  orders := [⟨1, 7, 7, .waitToBuy, 0, 3⟩]
  orderItems := []
  reservations := []
  details := []
  nextOrderID := 2
  nextResID := 1

/-- One engine operation at the store level: a `createOrder`, `cancelOrder`
or `sweep(now)` call, each with an arbitrary statement-failure injection.
A serialized trace of these operations models any interleaving of
concurrent calls: the store's row-level atomicity (the conditional
`UPDATE ... AND stock >= ?` is the sole concurrency primitive) serializes
the conflicting stock accesses. -/
inductive EngineOp
  | create (fl : CreateOrderFail) (now userID : Nat)
  | cancel (fl : CancelFail) (userID orderID : Nat)
  | sweep (fl : SweepFail) (now : Nat)

/-- State effect of one engine operation. -/
def applyEngineOp (db : DB) : EngineOp → DB
  | .create fl now userID => (CreateOrder fl now userID db).2
  | .cancel fl userID orderID => (CancelOrder fl userID orderID db).2
  | .sweep fl now => (CheckAndExpireOrders fl now db).2

/-- Run a trace of engine operations. -/
def runEngine (ops : List EngineOp) (db : DB) : DB := ops.foldl applyEngineOp db

/-! ### Theorems -/

/-! ### Elementary properties of the two stock primitives -/

theorem condReserve_le (st : SkuKey → Int) (k : SkuKey) (q : Nat) (x : SkuKey) :
    condReserve st k q x ≤ st x := by
  unfold condReserve
  split
  · rcases eq_or_ne x k with rfl | hne
    · simp only [Function.update_same]
      omega
    · simp [Function.update_noteq hne]
  · exact le_refl _

theorem condReserve_nonneg (st : SkuKey → Int) (k : SkuKey) (q : Nat) (x : SkuKey)
    (h : 0 ≤ st x) : 0 ≤ condReserve st k q x := by
  unfold condReserve
  split
  · rcases eq_or_ne x k with rfl | hne
    · simp only [Function.update_same]
      omega
    · simpa [Function.update_noteq hne] using h
  · exact h

theorem addStock_nonneg (st : SkuKey → Int) (k : SkuKey) (q : Nat) (x : SkuKey)
    (h : 0 ≤ st x) : 0 ≤ addStock st k q x := by
  unfold addStock
  rcases eq_or_ne x k with rfl | hne
  · simp only [Function.update_same]
    omega
  · simpa [Function.update_noteq hne] using h

theorem stockAfterReserve_le (items : List OrderItemModel) (st : SkuKey → Int) (x : SkuKey) :
    stockAfterReserve items st x ≤ st x := by
  induction items generalizing st with
  | nil => exact le_refl _
  | cons it rest ih =>
    exact le_trans (ih _) (condReserve_le _ _ _ _)

theorem stockAfterReserve_nonneg (items : List OrderItemModel) (st : SkuKey → Int) (x : SkuKey)
    (h : 0 ≤ st x) : 0 ≤ stockAfterReserve items st x := by
  induction items generalizing st with
  | nil => exact h
  | cons it rest ih =>
    exact ih _ (condReserve_nonneg _ _ _ _ h)

theorem stockAfterRelease_nonneg (items : List OrderItemModel) (st : SkuKey → Int) (x : SkuKey)
    (h : 0 ≤ st x) : 0 ≤ stockAfterRelease items st x := by
  induction items generalizing st with
  | nil => exact h
  | cons it rest ih =>
    exact ih _ (addStock_nonneg _ _ _ _ h)

/-- C1: the claim says a line item whose conditional stock decrement does not
apply (stock < requested quantity) makes the whole `createOrder` transaction
abort with an `insufficientStock` error.  The code never inspects the
affected-row count of the conditional `UPDATE`: at `dbLowStock` (stock 3,
requested 5) the call COMMITS and returns success, the stock row is
untouched, and the Order / Reservation / ReservationDetail rows are all
persisted — there is no `insufficientStock` outcome in `CreateOrder` at all. -/
theorem createOrder_insufficientStock_commits :
    (CreateOrder CreateOrderFail.none 0 1 dbLowStock).1 = .ok ⟨1, 24⟩
    ∧ (CreateOrder CreateOrderFail.none 0 1 dbLowStock).2.stock (SkuKey.product 100) = 3
    ∧ (CreateOrder CreateOrderFail.none 0 1 dbLowStock).2.orders = [⟨1, 1, 1, .waitToBuy, 100, 24⟩]
    ∧ (CreateOrder CreateOrderFail.none 0 1 dbLowStock).2.details = [⟨1, 100, Option.none, 5⟩]
    ∧ (CreateOrder CreateOrderFail.none 0 1 dbLowStock).2.reservations = [⟨1, 1, 1, 0, 0⟩] := by
  decide

/-- C4: the claim says the quantity released on cancel/expiry equals the
quantity actually subtracted at creation.  At `dbLowStock` the creation
subtracts nothing (stock 3 < requested 5, conditional update affects zero
rows) yet cancellation releases the full order-item quantity 5: stock goes
from 3 to 8, fabricating five units that were never reserved. -/
theorem cancelOrder_releases_unsubtracted_stock :
    (CreateOrder CreateOrderFail.none 0 1 dbLowStock).2.stock (SkuKey.product 100)
        = dbLowStock.stock (SkuKey.product 100)
    ∧ (CancelOrder CancelFail.none 1 1 (CreateOrder CreateOrderFail.none 0 1 dbLowStock).2).1 = .ok ()
    ∧ (CancelOrder CancelFail.none 1 1 (CreateOrder CreateOrderFail.none 0 1 dbLowStock).2).2.stock
        (SkuKey.product 100) = 8 := by
  decide

/-- C5 counterexample: with a credit balance of 0 (outside the TTL table),
the claim says `createOrder` fails with `invalidCredit` before any mutation.
At `dbZeroHearts` the call instead takes the `default:` branch (6 hours),
returns success, and performs its mutations (stock 10 → 8, order row
committed with `timer_expiration = now + 6`). -/
theorem createOrder_zero_credit_succeeds :
    heartDuration 0 = 6
    ∧ (CreateOrder CreateOrderFail.none 0 1 dbZeroHearts).1 = .ok ⟨1, 6⟩
    ∧ (CreateOrder CreateOrderFail.none 0 1 dbZeroHearts).2.orders = [⟨1, 1, 1, .waitToBuy, 60, 6⟩]
    ∧ (CreateOrder CreateOrderFail.none 0 1 dbZeroHearts).2.stock (SkuKey.product 7) = 8 := by
  decide

/-! ### CancelOrder -/

theorem returnStock_some_eq (fl : CancelFail) (items : List OrderItemModel) :
    ∀ (i : Nat) (db db' : DB), ReturnStockToInventoryTx fl i items db = some db' →
      db' = { db with stock := stockAfterRelease items db.stock } := by
  induction items with
  | nil =>
    intro i db db' h
    simp only [ReturnStockToInventoryTx, Option.some.injEq] at h
    subst h
    rfl
  | cons it rest ih =>
    intro i db db' h
    simp only [ReturnStockToInventoryTx] at h
    split at h
    · exact absurd h (by simp)
    · exact ih (i + 1) _ db' h

theorem deleteResTx_some_eq (fl : CancelFail) (orderID : Nat) (db db' : DB)
    (h : DeleteStockReservationTx fl orderID db = some db') :
    db' = { db with
      details := db.details.filter (fun d =>
        !(((db.reservations.filter (fun r => r.orderID == orderID)).map
          TempStockReservationModel.id).contains d.tempReservationID)),
      reservations := db.reservations.filter (fun r => !(r.orderID == orderID)) } := by
  unfold DeleteStockReservationTx at h
  dsimp only at h
  repeat' split at h
  all_goals simp_all

theorem find?_map_markCanceled (orderID : Nat) (l : List OrderModel) :
    (l.map (fun o => if o.id == orderID then { o with status := OrderStatus.canceled } else o)).find?
        (fun o => o.id == orderID)
      = (l.find? (fun o => o.id == orderID)).map
          (fun o => if o.id == orderID then { o with status := OrderStatus.canceled } else o) := by
  have hpf : ((fun o : OrderModel => o.id == orderID) ∘
      (fun o => if o.id == orderID then { o with status := OrderStatus.canceled } else o))
        = (fun o : OrderModel => o.id == orderID) := by
    funext o
    show ((if o.id == orderID then { o with status := OrderStatus.canceled } else o).id == orderID)
        = (o.id == orderID)
    split <;> rfl
  rw [List.find?_map, hpf]

/-- C6: `CancelOrder` fails with `notFound` when the order row is absent,
`forbidden` when the requester is not the owner, `invalidTransition` when
the status is not `waitToBuy`; every error outcome (including any injected
statement failure) leaves the store untouched; and a successful cancel
commits exactly the status change, the reservation+detail deletion and the
stock release together (`cancelOrderResultDB`), after which a second cancel
of the same order is rejected with `invalidTransition`. -/
theorem cancelOrder_spec (fl : CancelFail) (userID orderID : Nat) (db : DB) :
    (db.orders.find? (fun o => o.id == orderID) = Option.none →
        CancelOrder fl userID orderID db = (.error .notFound, db))
    ∧ (∀ o, db.orders.find? (fun o => o.id == orderID) = some o → o.userID ≠ userID →
        CancelOrder fl userID orderID db = (.error .forbidden, db))
    ∧ (∀ o, db.orders.find? (fun o => o.id == orderID) = some o → o.userID = userID →
        o.status ≠ OrderStatus.waitToBuy →
        CancelOrder fl userID orderID db = (.error .invalidTransition, db))
    ∧ (∀ e db', CancelOrder fl userID orderID db = (.error e, db') → db' = db)
    ∧ (∀ db', CancelOrder fl userID orderID db = (.ok (), db') →
        db' = cancelOrderResultDB orderID db
        ∧ ∀ fl', CancelOrder fl' userID orderID db' =
            (.error .invalidTransition, db')) := by
  refine ⟨?_, ?_, ?_, ?_, ?_⟩
  · intro hnone
    unfold CancelOrder
    rw [hnone]
  · intro o hfind hne
    unfold CancelOrder
    rw [hfind]
    simp [hne]
  · intro o hfind hown hst
    unfold CancelOrder
    rw [hfind]
    simp [hown, hst]
  · intro e db' h
    unfold CancelOrder at h
    dsimp only at h
    repeat' split at h
    all_goals simp_all
  · intro db' h
    unfold CancelOrder at h
    dsimp only at h
    split at h
    · exact absurd h (by simp)
    next order hfind =>
      split at h
      · exact absurd h (by simp)
      next hown =>
        split at h
        · exact absurd h (by simp)
        next hst =>
          split at h
          · exact absurd h (by simp)
          next hstatusFl =>
            split at h
            · exact absurd h (by simp)
            next tx2 hdel =>
              split at h
              · exact absurd h (by simp)
              next tx3 hret =>
                split at h
                · exact absurd h (by simp)
                next hcommit =>
                  have h2 : tx3 = db' := congrArg Prod.snd h
                  have e2 := returnStock_some_eq fl (GetOrderItems db orderID) 0 _ _ hret
                  have e1 := deleteResTx_some_eq fl orderID _ _ hdel
                  have hdb : db' = cancelOrderResultDB orderID db := by
                    rw [← h2, e2, e1]
                    rfl
                  refine ⟨hdb, ?_⟩
                  intro fl'
                  rw [hdb]
                  have hfindmark : (cancelOrderResultDB orderID db).orders.find?
                      (fun o => o.id == orderID)
                      = some { order with status := OrderStatus.canceled } := by
                    show (db.orders.map _).find? _ = _
                    rw [find?_map_markCanceled, hfind, Option.map_some',
                      if_pos (List.find?_some hfind)]
                  unfold CancelOrder
                  rw [hfindmark]
                  dsimp only
                  rw [if_neg hown, if_pos (by simp)]

/-- Witness for `cancelOrder_spec` at the spec's cancel scenario: the owner's
cancel of order 1 succeeds and commits all three effects, and repeating the
cancel is rejected with `invalidTransition`. -/
theorem cancelOrder_spec_witness :
    (CancelOrder CancelFail.none 1 1 dbCancelScenario).2 = cancelOrderResultDB 1 dbCancelScenario
    ∧ CancelOrder CancelFail.none 1 1 (CancelOrder CancelFail.none 1 1 dbCancelScenario).2
        = (.error .invalidTransition, (CancelOrder CancelFail.none 1 1 dbCancelScenario).2) := by
  have hs := (cancelOrder_spec CancelFail.none 1 1 dbCancelScenario).2.2.2.2
      (CancelOrder CancelFail.none 1 1 dbCancelScenario).2 (by rfl)
  refine ⟨hs.1, ?_⟩
  rw [hs.1]
  exact hs.1 ▸ hs.2 CancelFail.none

/-! ### CreateOrder atomicity -/

/-- C3: whenever `CreateOrder` returns an error — cart missing, empty cart,
user row missing, or any injected statement/commit failure inside the
transaction — the resulting store is exactly the initial one: no Order,
OrderItem, Reservation or ReservationDetail row, no stock change and no
cart change from the failed attempt is observable. -/
theorem createOrder_error_rollback (fl : CreateOrderFail) (now userID : Nat) (db : DB)
    (e : CreateOrderErr) (db' : DB)
    (h : CreateOrder fl now userID db = (.error e, db')) : db' = db := by
  unfold CreateOrder at h
  dsimp only at h
  repeat' split at h
  all_goals simp_all

/-- Witness for `createOrder_error_rollback`: a commit failure injected into
the order-creation transaction at `dbLowStock` leaves the store unchanged. -/
theorem createOrder_error_rollback_witness :
    (CreateOrder { CreateOrderFail.none with commitStep := true } 0 1 dbLowStock).2
      = dbLowStock :=
  createOrder_error_rollback { CreateOrderFail.none with commitStep := true } 0 1 dbLowStock
    .txFailed _ (by rfl)

/-! ### CreateOrder success characterization -/

theorem insertOrderItems_none_eq (orderID : Nat) (items : List OrderItemModel) :
    ∀ (i : Nat) (db : DB), insertOrderItems CreateOrderFail.none orderID i items db
      = some { db with orderItems := (db.orderItems ++
          items.map (fun it => { it with orderID := orderID })) } := by
  induction items with
  | nil =>
    intro i db
    simp [insertOrderItems]
  | cons it rest ih =>
    intro i db
    simp only [insertOrderItems]
    rw [if_neg (by simp [CreateOrderFail.none])]
    rw [ih]
    simp [List.append_assoc]

theorem reserveItems_none_eq (resID : Nat) (items : List OrderItemModel) :
    ∀ (i : Nat) (db : DB), reserveItems CreateOrderFail.none resID i items db
      = some { db with
          details := (db.details ++
            items.map (fun it => ⟨resID, it.productID, it.productVariantID, it.quantity⟩)),
          stock := stockAfterReserve items db.stock } := by
  induction items with
  | nil =>
    intro i db
    simp [reserveItems, stockAfterReserve]
  | cons it rest ih =>
    intro i db
    simp only [reserveItems]
    rw [if_neg (by simp [CreateOrderFail.none])]
    try dsimp only
    rw [if_neg (by simp [CreateOrderFail.none])]
    try dsimp only
    rw [ih]
    simp [stockAfterReserve, List.append_assoc]

theorem createOrder_none_success (now userID : Nat) (db : DB) (cartTotal heartCount : Int)
    (hc : db.carts userID = some cartTotal)
    (hh : db.hearts userID = some heartCount)
    (hne : cartItemsAsOrderItems db userID ≠ []) :
    CreateOrder CreateOrderFail.none now userID db
      = (.ok ⟨db.nextOrderID, now + heartDuration heartCount⟩,
         createOrderResultDB now userID cartTotal heartCount db) := by
  unfold CreateOrder
  rw [hc]
  dsimp only
  rw [if_neg (by simpa using hne)]
  rw [hh]
  dsimp only
  rw [if_neg (by simp [CreateOrderFail.none])]
  rw [insertOrderItems_none_eq]
  dsimp only
  unfold CreateStockReservationTx
  rw [if_neg (by simp [CreateOrderFail.none])]
  dsimp only
  rw [reserveItems_none_eq]
  dsimp only
  rw [if_neg (by simp [CreateOrderFail.none]), if_neg (by simp [CreateOrderFail.none]),
    if_neg (by simp [CreateOrderFail.none])]
  rfl

theorem heartDuration_pos (h : Int) : 0 < heartDuration h := by
  unfold heartDuration
  repeat' split
  all_goals norm_num

/-- C5 (amended): `CreateOrder` maps hearts 3 → 24h, 2 → 12h, 1 → 6h, and any
other balance — 0, negative, or above 3 — falls to the `default:` branch of
6 hours; the order is then created normally with
`timer_expiration = now + heartDuration hearts`.  No `invalidCredit`
rejection exists in `CreateOrder` (only the dead variant
`CreateStockReservation` at main.go:1762 errors on an unmapped count). -/
theorem createOrder_ttl_policy (now userID : Nat) (db : DB) (cartTotal heartCount : Int)
    (hc : db.carts userID = some cartTotal)
    (hh : db.hearts userID = some heartCount)
    (hne : cartItemsAsOrderItems db userID ≠ []) :
    heartDuration 3 = 24 ∧ heartDuration 2 = 12 ∧ heartDuration 1 = 6
    ∧ (heartCount ≠ 3 → heartCount ≠ 2 → heartCount ≠ 1 → heartDuration heartCount = 6)
    ∧ (CreateOrder CreateOrderFail.none now userID db).1
        = .ok ⟨db.nextOrderID, now + heartDuration heartCount⟩ := by
  refine ⟨rfl, rfl, rfl, ?_, ?_⟩
  · intro h3 h2 h1
    simp [heartDuration, h3, h2, h1]
  · rw [createOrder_none_success now userID db cartTotal heartCount hc hh hne]

/-- Witness for `createOrder_ttl_policy`: a zero-hearts user gets the 6-hour
default and a successful order. -/
theorem createOrder_ttl_policy_witness :
    heartDuration 0 = 6
    ∧ (CreateOrder CreateOrderFail.none 0 1 dbZeroHearts).1 = .ok ⟨1, 0 + heartDuration 0⟩ := by
  have h := createOrder_ttl_policy 0 1 dbZeroHearts 60 0 rfl rfl (by decide)
  exact ⟨h.2.2.2.1 (by decide) (by decide) (by decide), h.2.2.2.2⟩

/-- C10: a successful `CreateOrder` writes the reservation header with
`expired_at = reserved_at = now` while the order row gets
`timer_expiration = now + ttl`; hence immediately after the commit — at the
very same instant `now`, strictly before the order's deadline — the
reservation already satisfies `expired_at ≤ NOW()` and its details appear
in `CleanExpiredReservations`' selection for removal and stock revert. -/
theorem reservation_born_expired (now userID : Nat) (db : DB) (cartTotal heartCount : Int)
    (hc : db.carts userID = some cartTotal)
    (hh : db.hearts userID = some heartCount)
    (hne : cartItemsAsOrderItems db userID ≠ [])
    (hfresh : ∀ r ∈ db.reservations, r.id ≠ db.nextResID) :
    (CreateOrder CreateOrderFail.none now userID db).2.reservations
        = db.reservations ++ [⟨db.nextResID, userID, db.nextOrderID, now, now⟩]
    ∧ (CreateOrder CreateOrderFail.none now userID db).2.orders
        = db.orders ++ [⟨db.nextOrderID, userID, userID, .waitToBuy, cartTotal,
            now + heartDuration heartCount⟩]
    ∧ now < now + heartDuration heartCount
    ∧ ∃ e ∈ cleanSelection now (CreateOrder CreateOrderFail.none now userID db).2,
        e.id = db.nextResID ∧ e.orderID = db.nextOrderID := by
  rw [createOrder_none_success now userID db cartTotal heartCount hc hh hne]
  refine ⟨rfl, rfl, ?_, ?_⟩
  · have := heartDuration_pos heartCount
    omega
  · obtain ⟨it, rest, hitems⟩ : ∃ it rest, cartItemsAsOrderItems db userID = it :: rest := by
      cases hx : cartItemsAsOrderItems db userID with
      | nil => exact absurd hx hne
      | cons a l => exact ⟨a, l, rfl⟩
    refine ⟨⟨db.nextResID, db.nextOrderID, it.productID, it.productVariantID, it.quantity⟩,
      ?_, rfl, rfl⟩
    unfold cleanSelection
    rw [List.mem_filterMap]
    refine ⟨⟨db.nextResID, it.productID, it.productVariantID, it.quantity⟩, ?_, ?_⟩
    · show _ ∈ (createOrderResultDB now userID cartTotal heartCount db).details
      unfold createOrderResultDB
      dsimp only
      rw [hitems]
      simp
    · have hfind : (createOrderResultDB now userID cartTotal heartCount db).reservations.find?
          (fun r => r.id == db.nextResID && decide (r.expiredAt ≤ now))
          = some ⟨db.nextResID, userID, db.nextOrderID, now, now⟩ := by
        show (db.reservations ++ [(⟨db.nextResID, userID, db.nextOrderID, now, now⟩ :
            TempStockReservationModel)]).find? _ = _
        rw [List.find?_append]
        have h1 : db.reservations.find?
            (fun r => r.id == db.nextResID && decide (r.expiredAt ≤ now)) = Option.none := by
          rw [List.find?_eq_none]
          intro r hr
          simp [hfresh r hr]
        rw [h1]
        simp
      dsimp only
      rw [hfind]
      rfl

/-- Witness for `reservation_born_expired`: at time 5 the fresh reservation
carries `expired_at = 5` and is already in the clean-up selection although
the order's own deadline `5 + heartDuration 0` lies in the future. -/
theorem reservation_born_expired_witness :
    (CreateOrder CreateOrderFail.none 5 1 dbZeroHearts).2.reservations = [⟨1, 1, 1, 5, 5⟩]
    ∧ (5 : Nat) < 5 + heartDuration 0
    ∧ ∃ e ∈ cleanSelection 5 (CreateOrder CreateOrderFail.none 5 1 dbZeroHearts).2,
        e.id = 1 ∧ e.orderID = 1 := by
  have h := reservation_born_expired 5 1 dbZeroHearts 60 0 rfl rfl (by decide)
      (by simp [dbZeroHearts])
  exact ⟨by rw [h.1]; rfl, h.2.2.1, h.2.2.2⟩

/-! ### Expiry sweep -/

theorem dsrar_orders (b : Bool) (orderID : Nat) (db : DB) :
    (DeleteStockReservationAndReturn b orderID db).orders = db.orders := by
  unfold DeleteStockReservationAndReturn
  split <;> rfl

theorem dsrar_hearts (b : Bool) (orderID : Nat) (db : DB) :
    (DeleteStockReservationAndReturn b orderID db).hearts = db.hearts := by
  unfold DeleteStockReservationAndReturn
  split <;> rfl

theorem markExpired_comp (oid : Nat) (ids : List Nat) (o : OrderModel) :
    (fun o => if ids.contains o.id then { o with status := OrderStatus.expired } else o)
      ((fun o => if o.id == oid then { o with status := OrderStatus.expired } else o) o)
    = if (oid :: ids).contains o.id then { o with status := OrderStatus.expired } else o := by
  dsimp only
  rw [List.contains_cons]
  by_cases h : (o.id == oid) = true
  · rw [if_pos h]
    dsimp only
    rw [h, Bool.true_or]
    by_cases h2 : (ids.contains o.id) = true
    · rw [if_pos h2]
      rfl
    · rw [if_neg h2]
      rfl
  · rw [if_neg h]
    have hf : (o.id == oid) = false := by simpa using h
    rw [hf, Bool.false_or]

theorem sweepLoop_no_direct_fail (fl : SweepFail)
    (hs : ∀ n, fl.statusUpdate n = false) (hh : ∀ n, fl.heartsUpdate n = false) :
    ∀ (pairs : List (Nat × Nat)) (db : DB),
      (sweepLoop fl pairs db).1 = .ok ()
      ∧ (sweepLoop fl pairs db).2.orders = db.orders.map (fun o =>
          if (pairs.map Prod.fst).contains o.id then { o with status := OrderStatus.expired }
          else o)
      ∧ (sweepLoop fl pairs db).2.hearts = pairs.foldl
          (fun hf (p : Nat × Nat) => Function.update hf p.2 ((hf p.2).map (fun x => x - 1)))
          db.hearts := by
  intro pairs
  induction pairs with
  | nil =>
    intro db
    refine ⟨rfl, ?_, rfl⟩
    simp [sweepLoop]
  | cons p rest ih =>
    intro db
    obtain ⟨oid, uid⟩ := p
    simp only [sweepLoop]
    rw [if_neg (by simp [hs oid])]
    try dsimp only
    rw [if_neg (by simp [hh oid])]
    try dsimp only
    obtain ⟨ih1, ih2, ih3⟩ := ih (DeleteStockReservationAndReturn (fl.resTx oid) oid
      { stock := db.stock, hearts := Function.update db.hearts uid
          ((db.hearts uid).map (fun h => h - 1)),
        carts := db.carts, cartItems := db.cartItems,
        orders := db.orders.map (fun o =>
          if o.id == oid then { o with status := OrderStatus.expired } else o),
        orderItems := db.orderItems, reservations := db.reservations, details := db.details,
        nextOrderID := db.nextOrderID, nextResID := db.nextResID })
    refine ⟨ih1, ?_, ?_⟩
    · rw [ih2, dsrar_orders]
      show (db.orders.map _).map _ = _
      rw [List.map_map, List.map_cons]
      exact List.map_congr_left (fun o _ => markExpired_comp oid (rest.map Prod.fst) o)
    · rw [ih3, dsrar_hearts]
      rfl

/-- C8: running the sweep twice at the same instant with no failures makes
the second run a strict no-op: its selection is empty (already-expired
orders no longer match `status = 'waitToBuy'`), so no order is reprocessed,
no stock re-released, and no heart decremented a second time — the state is
returned unchanged with a success result. -/
theorem sweep_idempotent (now : Nat) (db : DB) :
    CheckAndExpireOrders SweepFail.none now ((CheckAndExpireOrders SweepFail.none now db).2)
      = (.ok (), (CheckAndExpireOrders SweepFail.none now db).2) := by
  have h1 := sweepLoop_no_direct_fail SweepFail.none (fun _ => rfl) (fun _ => rfl)
      ((expiredSelection now db.orders).map (fun o => (o.id, o.userID))) db
  have hsel : expiredSelection now (CheckAndExpireOrders SweepFail.none now db).2.orders = [] := by
    have horders : (CheckAndExpireOrders SweepFail.none now db).2.orders
        = db.orders.map (fun o =>
            if (((expiredSelection now db.orders).map (fun o => (o.id, o.userID))).map
                Prod.fst).contains o.id
            then { o with status := OrderStatus.expired } else o) := h1.2.1
    rw [horders]
    set ids := ((expiredSelection now db.orders).map (fun o => (o.id, o.userID))).map Prod.fst
      with hids
    unfold expiredSelection
    rw [List.filter_eq_nil_iff]
    intro o' ho'
    obtain ⟨o, ho, rfl⟩ := List.mem_map.mp ho'
    by_cases hc : (ids.contains o.id) = true
    · rw [if_pos hc]
      simp
    · rw [if_neg hc]
      simp only [decide_eq_true_eq]
      intro hcond
      apply hc
      have homem : o ∈ expiredSelection now db.orders := by
        unfold expiredSelection
        rw [List.mem_filter]
        exact ⟨ho, by simpa using hcond⟩
      rw [hids, List.map_map]
      exact List.contains_iff_exists_mem_beq.mpr
        ⟨o.id, List.mem_map_of_mem _ homem, by simp⟩
  show sweepLoop SweepFail.none
      ((expiredSelection now (CheckAndExpireOrders SweepFail.none now db).2.orders).map
        (fun o => (o.id, o.userID)))
      (CheckAndExpireOrders SweepFail.none now db).2
    = (.ok (), (CheckAndExpireOrders SweepFail.none now db).2)
  rw [hsel]
  rfl

/-- C9 (amended): the sweep's penalty is `hearts = hearts - 1` with no
clamping: when exactly one order is expired, its owner's stored balance ends
at `h - 1` for EVERY starting balance `h` — including `h = 0`, which goes to
`-1`, below the 0-3 domain floor. -/
theorem sweep_penalize_no_floor (now : Nat) (db : DB) (o : OrderModel) (h : Int)
    (hsel : expiredSelection now db.orders = [o])
    (hh : db.hearts o.userID = some h) :
    (CheckAndExpireOrders SweepFail.none now db).2.hearts o.userID = some (h - 1) := by
  have h1 := sweepLoop_no_direct_fail SweepFail.none (fun _ => rfl) (fun _ => rfl)
      [(o.id, o.userID)] db
  unfold CheckAndExpireOrders
  rw [hsel]
  show (sweepLoop SweepFail.none [(o.id, o.userID)] db).2.hearts o.userID = some (h - 1)
  rw [h1.2.2]
  simp [hh]

/-- Witness for `sweep_penalize_no_floor` at `dbExpiredZeroHearts`: a balance
of 0 is decremented to `0 - 1`. -/
theorem sweep_penalize_no_floor_witness :
    (CheckAndExpireOrders SweepFail.none 10 dbExpiredZeroHearts).2.hearts 7 = some (0 - 1) :=
  sweep_penalize_no_floor 10 dbExpiredZeroHearts ⟨1, 7, 7, .waitToBuy, 0, 3⟩ 0
    (by decide) rfl

/-- C9 counterexample: the claim says the stored balance is never pushed
below the domain floor.  Sweeping `dbExpiredZeroHearts` (user 7 at balance
0 with one expired order) leaves the balance at `-1`. -/
theorem sweep_hearts_below_floor :
    (CheckAndExpireOrders SweepFail.none 10 dbExpiredZeroHearts).2.hearts 7 = some (-1) := by
  decide

/-- C7 counterexample: the claim says each expired order is processed in ONE
transaction covering status, reservation deletion, stock release and credit
decrement, and that one order's failure does not block the others.  At
`dbTwoExpired`, failing only order 1's hearts statement (a) leaves order 1's
status update COMMITTED while its hearts, reservation and stock effects did
not happen — so the four effects are not atomic — and (b) aborts the run
before order 2 (equally expired) is processed at all. -/
theorem sweep_not_per_order_transaction :
    (CheckAndExpireOrders sweepFailHearts1 5 dbTwoExpired).1 = .error .heartsUpdateFailed
    ∧ (CheckAndExpireOrders sweepFailHearts1 5 dbTwoExpired).2.orders
        = [⟨1, 10, 10, .expired, 0, 4⟩, ⟨2, 20, 20, .waitToBuy, 0, 4⟩]
    ∧ (CheckAndExpireOrders sweepFailHearts1 5 dbTwoExpired).2.hearts 10 = some 3
    ∧ (CheckAndExpireOrders sweepFailHearts1 5 dbTwoExpired).2.reservations = [⟨1, 10, 1, 0, 0⟩]
    ∧ (CheckAndExpireOrders sweepFailHearts1 5 dbTwoExpired).2.stock (SkuKey.product 3) = 1 := by
  decide

/-- C7 (amended): the sweep handles each expired order with three separate
units of work — a bare status `UPDATE`, a bare hearts `UPDATE`, and the
independent transaction of `DeleteStockReservationAndReturn`.  Only the
latter's failure is confined to its order: with arbitrary per-order
reservation-transaction failures injected, the sweep still succeeds, still
marks every selected order `expired`, and still decrements every owner's
hearts once per selected order. -/
theorem sweep_resTx_failure_isolated (now : Nat) (db : DB) (resFail : Nat → Bool) :
    (CheckAndExpireOrders ⟨fun _ => false, fun _ => false, resFail⟩ now db).1 = .ok ()
    ∧ (CheckAndExpireOrders ⟨fun _ => false, fun _ => false, resFail⟩ now db).2.orders
        = db.orders.map (fun o =>
            if ((expiredSelection now db.orders).map (fun x => x.id)).contains o.id
            then { o with status := OrderStatus.expired } else o)
    ∧ (CheckAndExpireOrders ⟨fun _ => false, fun _ => false, resFail⟩ now db).2.hearts
        = ((expiredSelection now db.orders).map (fun o => (o.id, o.userID))).foldl
            (fun hf p => Function.update hf p.2 ((hf p.2).map (fun x => x - 1))) db.hearts := by
  have h := sweepLoop_no_direct_fail ⟨fun _ => false, fun _ => false, resFail⟩
      (fun _ => rfl) (fun _ => rfl)
      ((expiredSelection now db.orders).map (fun o => (o.id, o.userID))) db
  refine ⟨h.1, ?_, h.2.2⟩
  rw [show (CheckAndExpireOrders ⟨fun _ => false, fun _ => false, resFail⟩ now db).2.orders
      = (sweepLoop ⟨fun _ => false, fun _ => false, resFail⟩
        ((expiredSelection now db.orders).map (fun o => (o.id, o.userID))) db).2.orders from rfl,
    h.2.1, List.map_map]
  rfl

/-! ### Stock invariant -/

theorem insertOrderItems_some_stock (fl : CreateOrderFail) (orderID : Nat)
    (items : List OrderItemModel) :
    ∀ (i : Nat) (db db' : DB), insertOrderItems fl orderID i items db = some db' →
      db'.stock = db.stock := by
  induction items with
  | nil =>
    intro i db db' h
    simp only [insertOrderItems, Option.some.injEq] at h
    rw [← h]
  | cons it rest ih =>
    intro i db db' h
    simp only [insertOrderItems] at h
    split at h
    · exact absurd h (by simp)
    · exact ih (i + 1)
        { db with orderItems := db.orderItems ++ [{ it with orderID := orderID }] } db' h

theorem reserveItems_some_stock (fl : CreateOrderFail) (resID : Nat)
    (items : List OrderItemModel) :
    ∀ (i : Nat) (db db' : DB) (x : SkuKey), reserveItems fl resID i items db = some db' →
      db'.stock x ≤ db.stock x ∧ (0 ≤ db.stock x → 0 ≤ db'.stock x) := by
  induction items with
  | nil =>
    intro i db db' x h
    simp only [reserveItems, Option.some.injEq] at h
    rw [← h]
    exact ⟨le_refl _, fun hh => hh⟩
  | cons it rest ih =>
    intro i db db' x h
    simp only [reserveItems] at h
    split at h
    · exact absurd h (by simp)
    split at h
    · exact absurd h (by simp)
    have hrec := ih (i + 1) _ db' x h
    exact ⟨le_trans hrec.1 (condReserve_le _ _ _ _),
      fun h0 => hrec.2 (condReserve_nonneg _ _ _ _ h0)⟩

theorem createStockResTx_some_stock (fl : CreateOrderFail) (now orderID userID : Nat)
    (items : List OrderItemModel) (db db' : DB) (x : SkuKey)
    (h : CreateStockReservationTx fl now orderID userID items db = some db') :
    db'.stock x ≤ db.stock x ∧ (0 ≤ db.stock x → 0 ≤ db'.stock x) := by
  unfold CreateStockReservationTx at h
  dsimp only at h
  split at h
  · exact absurd h (by simp)
  · exact reserveItems_some_stock fl db.nextResID items 0
      { db with
        reservations := db.reservations ++ [⟨db.nextResID, userID, orderID, now, now⟩],
        nextResID := db.nextResID + 1 } db' x h

theorem createOrder_stock (fl : CreateOrderFail) (now userID : Nat) (db : DB) (x : SkuKey) :
    (CreateOrder fl now userID db).2.stock x ≤ db.stock x
    ∧ (0 ≤ db.stock x → 0 ≤ (CreateOrder fl now userID db).2.stock x) := by
  unfold CreateOrder
  dsimp only
  split
  · exact ⟨le_refl _, fun h => h⟩
  split
  · exact ⟨le_refl _, fun h => h⟩
  split
  · exact ⟨le_refl _, fun h => h⟩
  split
  · exact ⟨le_refl _, fun h => h⟩
  split
  · exact ⟨le_refl _, fun h => h⟩
  next tx2 hins =>
    split
    · exact ⟨le_refl _, fun h => h⟩
    next tx3 hres =>
      have h2 := insertOrderItems_some_stock fl db.nextOrderID
        (cartItemsAsOrderItems db userID) 0 _ _ hins
      have h3 := createStockResTx_some_stock fl now db.nextOrderID userID
        (cartItemsAsOrderItems db userID) _ _ x hres
      rw [h2] at h3
      split
      · exact ⟨le_refl _, fun h => h⟩
      split <;> split <;> exact h3

theorem cancelOrder_stock_nonneg (fl : CancelFail) (userID orderID : Nat) (db : DB)
    (x : SkuKey) (h0 : 0 ≤ db.stock x) : 0 ≤ (CancelOrder fl userID orderID db).2.stock x := by
  unfold CancelOrder
  dsimp only
  split
  · exact h0
  split
  · exact h0
  split
  · exact h0
  split
  · exact h0
  split
  · exact h0
  next tx2 hdel =>
    split
    · exact h0
    next tx3 hret =>
      have e2 := returnStock_some_eq fl (GetOrderItems db orderID) 0 _ _ hret
      have e1 := deleteResTx_some_eq fl orderID _ _ hdel
      split
      · exact h0
      · show 0 ≤ tx3.stock x
        rw [e2, e1]
        exact stockAfterRelease_nonneg _ _ _ h0

theorem foldDetails_nonneg (ds : List TempStockDetailModel) :
    ∀ (st : SkuKey → Int) (x : SkuKey), 0 ≤ st x →
      0 ≤ (ds.foldl (fun s d => addStock s (itemSku d.productID d.productVariantID) d.quantity)
        st) x := by
  induction ds with
  | nil => exact fun st x h => h
  | cons d rest ih => exact fun st x h => ih _ x (addStock_nonneg _ _ _ _ h)

theorem dsrar_stock_nonneg (b : Bool) (oid : Nat) (db : DB) (x : SkuKey)
    (h0 : 0 ≤ db.stock x) : 0 ≤ (DeleteStockReservationAndReturn b oid db).stock x := by
  unfold DeleteStockReservationAndReturn
  split
  · exact h0
  · exact foldDetails_nonneg _ _ x h0

theorem sweepLoop_stock_nonneg (fl : SweepFail) :
    ∀ (pairs : List (Nat × Nat)) (db : DB) (x : SkuKey), 0 ≤ db.stock x →
      0 ≤ (sweepLoop fl pairs db).2.stock x := by
  intro pairs
  induction pairs with
  | nil => exact fun db x h => h
  | cons p rest ih =>
    intro db x h
    obtain ⟨oid, uid⟩ := p
    simp only [sweepLoop]
    split
    · exact h
    split
    · exact h
    · exact ih _ x (dsrar_stock_nonneg _ _ _ x h)

theorem engine_stock_nonneg :
    ∀ (ops : List EngineOp) (db : DB), (∀ x, 0 ≤ db.stock x) →
      ∀ x, 0 ≤ (runEngine ops db).stock x := by
  intro ops
  induction ops with
  | nil => exact fun db h x => h x
  | cons op rest ih =>
    intro db h x
    refine ih (applyEngineOp db op) ?_ x
    intro y
    cases op with
    | create fl now userID => exact (createOrder_stock fl now userID db y).2 (h y)
    | cancel fl userID orderID => exact cancelOrder_stock_nonneg fl userID orderID db y (h y)
    | sweep fl now =>
      exact sweepLoop_stock_nonneg fl
        ((expiredSelection now db.orders).map (fun o => (o.id, o.userID))) db y (h y)

theorem createOnly_stock_le :
    ∀ (ops : List EngineOp), (∀ op ∈ ops, ∃ fl now uid, op = EngineOp.create fl now uid) →
      ∀ (db : DB) (x : SkuKey), (runEngine ops db).stock x ≤ db.stock x := by
  intro ops
  induction ops with
  | nil => exact fun _ db x => le_refl _
  | cons op rest ih =>
    intro hall db x
    obtain ⟨fl, now, uid, rfl⟩ := hall op (List.mem_cons_self op rest)
    exact le_trans
      (ih (fun o ho => hall o (List.mem_cons_of_mem _ ho)) _ x)
      (createOrder_stock fl now uid db x).1

/-- C2: (1) under any serialized trace of createOrder / cancelOrder / sweep
operations — any interleaving of concurrent calls, with arbitrary failure
injection — every SKU's stock stays non-negative; (2) the reserve primitive
decrements exactly `q` when the row holds at least `q` and leaves the row
untouched otherwise; (3) for a trace consisting only of createOrder calls
against initial stock `S = db.stock k`, the total quantity successfully
reserved (= the total decrease of the row, since createOrder never
increases stock) is between `0` and `S`. -/
theorem stock_invariant_no_oversell (db : DB) (ops : List EngineOp) (k : SkuKey)
    (hnn : ∀ x, 0 ≤ db.stock x) :
    (0 ≤ (runEngine ops db).stock k)
    ∧ (∀ (st : SkuKey → Int) (q : Nat), (q : Int) ≤ st k → condReserve st k q k = st k - q)
    ∧ (∀ (st : SkuKey → Int) (q : Nat), ¬((q : Int) ≤ st k) → condReserve st k q = st)
    ∧ ((∀ op ∈ ops, ∃ fl now uid, op = EngineOp.create fl now uid) →
        0 ≤ db.stock k - (runEngine ops db).stock k
        ∧ db.stock k - (runEngine ops db).stock k ≤ db.stock k) := by
  refine ⟨engine_stock_nonneg ops db hnn k, ?_, ?_, ?_⟩
  · intro st q hq
    unfold condReserve
    rw [if_pos hq, Function.update_same]
  · intro st q hq
    unfold condReserve
    rw [if_neg hq]
  · intro hcreate
    have h1 := createOnly_stock_le ops hcreate db k
    have h2 := engine_stock_nonneg ops db hnn k
    omega

/-- Witness for `stock_invariant_no_oversell`: one createOrder call against
`dbLowStock`. -/
theorem stock_invariant_no_oversell_witness :
    0 ≤ (runEngine [.create CreateOrderFail.none 0 1] dbLowStock).stock (SkuKey.product 100)
    ∧ 0 ≤ dbLowStock.stock (SkuKey.product 100)
        - (runEngine [.create CreateOrderFail.none 0 1] dbLowStock).stock (SkuKey.product 100)
    ∧ dbLowStock.stock (SkuKey.product 100)
        - (runEngine [.create CreateOrderFail.none 0 1] dbLowStock).stock (SkuKey.product 100)
      ≤ dbLowStock.stock (SkuKey.product 100) := by
  have h := stock_invariant_no_oversell dbLowStock [.create CreateOrderFail.none 0 1]
      (SkuKey.product 100)
      (fun x => by by_cases hx : x = SkuKey.product 100 <;> simp [dbLowStock, hx])
  have hcr := h.2.2.2 (by intro op hop; exact ⟨CreateOrderFail.none, 0, 1, by simpa using hop⟩)
  exact ⟨h.1, hcr.1, hcr.2⟩
